import Mathlib

/-
Verification of the multi-provider calendar synchronization core of the
Morph repository (src-tauri/src/calendar/): the aggregator with its
deduplication pass, the background poller with fingerprint-based change
detection and its SQLite cache, and the token or identity handling of the
Google and Microsoft OAuth providers.

The Rust code is shallowly embedded: chrono UTC timestamps become Int,
provider network fetches become data (each provider is modelled together
with the outcome of its fetch), the SQLite table becomes a list of rows,
and the stable sort performed by Vec::sort_by is modelled by insertion
sort, which is stable.
-/

/-! ## Error taxonomy (src-tauri/src/calendar/error.rs) -/

/-- The closed error set shared by all providers, from error.rs. -/
inductive CalendarError where
  | AuthenticationFailed (msg : String)
  | TokenRefreshFailed (msg : String)
  | FetchFailed (msg : String)
  | NotAuthenticated
  | NetworkError (msg : String)
  | DeserializationError (msg : String)
  | ProviderError (provider : String) (message : String)
deriving DecidableEq, Repr

/-! ## Data model (src-tauri/src/calendar/types.rs) -/

/-- The canonical merged event representation, from types.rs.
Timestamps are UTC instants, embedded as integers. -/
structure CalendarEvent where
  id : String
  title : String
  start_time : Int
  end_time : Int
  ignored : Bool
  calendar_id : Option String
  provider_id : String
  is_all_day : Bool
deriving DecidableEq, Repr

/-! ## Stable sorting by an integer key

Vec::sort_by in Rust is a stable sort; any two stable sorts with the same
comparator agree, so List.insertionSort by the key is a faithful model. -/

/-- Comparator used by the sorts in aggregator.rs and by the SQL
ORDER BY in poller.rs: compare by an integer key. -/
def keyLe {α : Type} (key : α → Int) (a b : α) : Prop :=
  key a ≤ key b

instance {α : Type} (key : α → Int) : DecidableRel (keyLe key) :=
  fun a b => inferInstanceAs (Decidable (key a ≤ key b))

instance {α : Type} (key : α → Int) : IsTotal α (keyLe key) :=
  ⟨fun a b => Int.le_total (key a) (key b)⟩

instance {α : Type} (key : α → Int) : IsTrans α (keyLe key) :=
  ⟨fun _ _ _ hab hbc => Int.le_trans hab hbc⟩

/-! ## Aggregator (src-tauri/src/calendar/aggregator.rs) -/

/-- The deduplication fingerprint built in deduplicate_events, line 85:
the tuple (title, start_time, end_time). -/
def dedupKey (e : CalendarEvent) : String × Int × Int :=
  (e.title, e.start_time, e.end_time)

/-- The retain pass of deduplicate_events (aggregator.rs lines 83-91):
walk the list in order, keep an event only when inserting its key into
the seen set succeeds, that is when the key was not seen before. -/
def dedupRetain : List CalendarEvent → List (String × Int × Int) → List CalendarEvent
  | [], _ => []
  | e :: rest, seen =>
    if dedupKey e ∈ seen then dedupRetain rest seen
    else e :: dedupRetain rest (dedupKey e :: seen)

/-- deduplicate_events (aggregator.rs lines 82-95): drop every event whose
(title, start_time, end_time) key occurred earlier in the list, then
stable-sort the survivors by start_time. -/
def deduplicate_events (events : List CalendarEvent) : List CalendarEvent :=
  List.insertionSort (keyLe CalendarEvent.start_time) (dedupRetain events [])

/-- Result of an aggregator fetch cycle, from aggregator.rs lines 14-20. -/
structure AggregatorResult where
  events : List CalendarEvent
  errors : List (String × CalendarError)
deriving DecidableEq, Repr

instance {ε α : Type} [DecidableEq ε] [DecidableEq α] : DecidableEq (Except ε α) := fun a b =>
  match a, b with
  | .ok x, .ok y =>
    if h : x = y then .isTrue (by rw [h])
    else .isFalse (fun hc => h (by injection hc))
  | .ok _, .error _ => .isFalse (fun hc => Except.noConfusion hc)
  | .error _, .ok _ => .isFalse (fun hc => Except.noConfusion hc)
  | .error x, .error y =>
    if h : x = y then .isTrue (by rw [h])
    else .isFalse (fun hc => h (by injection hc))

/-- A provider as seen by one aggregator fetch cycle: its provider_id and
the outcome its fetch_events call produces.  The network interaction is
data of the model. -/
structure ProviderModel where
  provider_id : String
  fetchResult : Except CalendarError (List CalendarEvent)
deriving DecidableEq, Repr

/-- The events contributed by the successful providers, in provider
iteration order (the Ok branch of aggregator.rs line 61). -/
def okEvents : List ProviderModel → List CalendarEvent
  | [] => []
  | p :: ps =>
    (match p.fetchResult with
     | .ok evs => evs
     | .error _ => []) ++ okEvents ps

/-- The (provider_id, error) entries recorded for the failing providers,
in provider iteration order (the Err branch of aggregator.rs line 62). -/
def errEntries : List ProviderModel → List (String × CalendarError)
  | [] => []
  | p :: ps =>
    (match p.fetchResult with
     | .ok _ => []
     | .error e => [(p.provider_id, e)]) ++ errEntries ps

/-- One step of the provider iteration loop of
CalendarAggregator::fetch_events (aggregator.rs lines 59-64). -/
def fetchStep (acc : List CalendarEvent × List (String × CalendarError))
    (p : ProviderModel) : List CalendarEvent × List (String × CalendarError) :=
  match p.fetchResult with
  | .ok evs => (acc.1 ++ evs, acc.2)
  | .error e => (acc.1, acc.2 ++ [(p.provider_id, e)])

/-- CalendarAggregator::fetch_events (aggregator.rs lines 51-69): iterate
the providers in insertion order, collect events of successes and one
error entry per failure, then deduplicate and sort the events. -/
def fetch_events (providers : List ProviderModel) : AggregatorResult :=
  let acc := providers.foldl fetchStep ([], [])
  { events := deduplicate_events acc.1, errors := acc.2 }

/-! ## Poller (src-tauri/src/calendar/poller.rs) -/

/-- EventFingerprint (poller.rs lines 16-31): the change-detection tuple
(id, start_time, end_time) derived from an event. -/
structure EventFingerprint where
  id : String
  start_time : Int
  end_time : Int
deriving DecidableEq, Repr

/-- The From conversion of poller.rs lines 23-31. -/
def fingerprintOf (e : CalendarEvent) : EventFingerprint :=
  { id := e.id, start_time := e.start_time, end_time := e.end_time }

/-- The HashMap from event id to fingerprint is modelled as an
association list whose keys stay pairwise distinct. -/
abbrev FpMap : Type := List (String × EventFingerprint)

/-- HashMap::insert: replace the entry of an existing key, otherwise
append a new entry. -/
def mapInsert (m : FpMap) (k : String) (v : EventFingerprint) : FpMap :=
  if (List.any m (fun p => p.1 == k)) then
    List.map (fun p : String × EventFingerprint => if p.1 == k then (k, v) else p) m
  else
    List.append m [(k, v)]

/-- HashMap::get. -/
def mapLookup (m : FpMap) (k : String) : Option EventFingerprint :=
  Option.map Prod.snd (List.find? (fun p => p.1 == k) m)

/-- Equality of two HashMaps as implemented by std: same length, and
every (key, value) entry of the first is present in the second. -/
def mapEqb (m1 m2 : FpMap) : Bool :=
  (List.length m1 == List.length m2) &&
    List.all m1 (fun p => mapLookup m2 p.1 == some p.2)

/-- The fingerprint map of an event list (poller.rs lines 110-113 and the
seeding loop at lines 64-67): insert (event.id, fingerprint) per event in
list order, later entries overwriting earlier ones with the same id. -/
def fpMap (events : List CalendarEvent) : FpMap :=
  events.foldl (fun m e => mapInsert m e.id (fingerprintOf e)) []

/-! ### SQLite cache (poller.rs lines 163-230)

Modelled from the spec: the migration file defining the calendar_events
schema (src-tauri/migrations/001_initial_schema.sql) is not part of the
provided sources; the table shape is taken from spec section 6, which
says the cache is a relational table keyed by event id with columns for
all CalendarEvent fields, matching the CREATE TABLE used by the tests in
poller.rs (id TEXT PRIMARY KEY, is_all_day and ignored as INTEGER).  The
fetched_at column is written but never read, and is omitted here. -/

/-- One row of the calendar_events table.  Timestamps keep their integer
embedding (to_rfc3339 and the RFC3339 parse in load_cached_events are a
lossless, order-preserving round trip for UTC instants); the two flags
are stored as integers, as in the source (event.is_all_day as i32). -/
structure CacheRow where
  id : String
  provider_id : String
  calendar_id : Option String
  title : String
  start_time : Int
  end_time : Int
  is_all_day : Int
  ignored : Int
deriving DecidableEq, Repr

/-- The cache table contents. -/
abbrev CacheTable : Type := List CacheRow

/-- Serialization of one event into an inserted row
(poller.rs lines 211-225). -/
def toRow (e : CalendarEvent) : CacheRow :=
  { id := e.id
    provider_id := e.provider_id
    calendar_id := e.calendar_id
    title := e.title
    start_time := e.start_time
    end_time := e.end_time
    is_all_day := if e.is_all_day then 1 else 0
    ignored := if e.ignored then 1 else 0 }

/-- The row decoding of load_cached_events (poller.rs lines 176-194).  In
this embedding the timestamp parse cannot fail, because the integers
stand for the RFC3339 strings produced by to_rfc3339; the Option shape of
the source filter_map is kept. -/
def eventOfRow (r : CacheRow) : CalendarEvent :=
  { id := r.id
    provider_id := r.provider_id
    calendar_id := r.calendar_id
    title := r.title
    start_time := r.start_time
    end_time := r.end_time
    is_all_day := !(r.is_all_day == 0)
    ignored := !(r.ignored == 0) }

/-- The Option shape of the source filter_map, kept although the decode
cannot fail here. -/
def rowToEvent (r : CacheRow) : Option CalendarEvent :=
  some (eventOfRow r)

/-- load_cached_events (poller.rs lines 163-198): read all rows ordered
by start_time and decode each row. -/
def load_cached_events (table : CacheTable) : List CalendarEvent :=
  List.filterMap rowToEvent
    (List.insertionSort (keyLe CacheRow.start_time) table)

/-- One INSERT of cache_events under the PRIMARY KEY constraint on id:
a duplicate id aborts the transaction. -/
def insertRow (acc : Except String (List CacheRow)) (e : CalendarEvent) :
    Except String (List CacheRow) :=
  match acc with
  | .error m => .error m
  | .ok rows =>
    if List.any rows (fun r => r.id == e.id) then
      .error "UNIQUE constraint failed: calendar_events.id"
    else
      .ok (rows ++ [toRow e])

/-- cache_events (poller.rs lines 201-230): inside one transaction,
delete every row, insert one row per event, commit.  A failed insert
rolls the transaction back, leaving the previous table contents; the
second component reports the error. -/
def cache_events (table : CacheTable) (events : List CalendarEvent) :
    CacheTable × Option String :=
  match events.foldl insertRow (.ok []) with
  | .ok rows => (rows, none)
  | .error m => (table, some m)

/-! ### The polling loop (poller.rs lines 45-125) -/

/-- The state the polling loop carries across cycles: the fingerprint map
retained from the last publish and the durable cache table. -/
structure PollerState where
  fingerprints : FpMap
  cache : CacheTable
deriving DecidableEq, Repr

/-- One iteration of the polling loop (poller.rs lines 76-123).  Returns
the successor state and the event list published this cycle, if any.
Cycle structure, in source order: with zero providers, publish an empty
list once if the retained map is non-empty and clear it, never touching
the cache; otherwise fetch; when the fetch yields zero events and at
least one error, do nothing; otherwise publish and write the cache
exactly when the new fingerprint map differs from the retained one (a
failed cache write is logged and swallowed, the fingerprint map is
updated regardless). -/
def pollCycle (st : PollerState) (providers : List ProviderModel) :
    PollerState × Option (List CalendarEvent) :=
  if providers.isEmpty then
    if !(List.isEmpty st.fingerprints) then
      ({ fingerprints := [], cache := st.cache }, some [])
    else
      (st, none)
  else
    let result := fetch_events providers
    if result.events.isEmpty && !result.errors.isEmpty then
      (st, none)
    else
      let newFp := fpMap result.events
      if mapEqb newFp st.fingerprints then
        (st, none)
      else
        ({ fingerprints := newFp, cache := (cache_events st.cache result.events).1 },
          some result.events)

/-- Cold start (poller.rs lines 59-74): load the cached events; when the
cache is non-empty, seed the fingerprint map from it and publish it. -/
def coldStart (table : CacheTable) : PollerState × Option (List CalendarEvent) :=
  let cached := load_cached_events table
  if cached.isEmpty then
    ({ fingerprints := [], cache := table }, none)
  else
    ({ fingerprints := fpMap cached, cache := table }, some cached)

/-! ## Google provider (src-tauri/src/calendar/google.rs) -/

/-- The fixed OAuth client id (google.rs lines 15-16). -/
def GOOGLE_CLIENT_ID : String :=
  "715902033958-u6sdotrtdf7tsv7sm4vshtvqus1tm7hs.apps.googleusercontent.com"

/-- Loopback port range for the Google OAuth redirect listener
(google.rs lines 29-30), tried in order, both ends included. -/
def PORT_RANGE_START : Nat := 19847

def PORT_RANGE_END : Nat := 19857

/-- The candidate ports a provider tries, in order: the inclusive range
start..=stop iterated by find_available_port. -/
def portCandidates (start stop : Nat) : List Nat :=
  List.range' start (stop + 1 - start)

/-- In-memory state of GoogleCalendarProvider (google.rs lines 126-134);
the reqwest client is omitted, token_expiry keeps the Int embedding of
UTC instants. -/
structure GoogleProviderState where
  client_id : String
  account_email : Option String
  access_token : Option String
  refresh_token : Option String
  token_expiry : Option Int
  provider_id_cache : String
deriving DecidableEq, Repr

/-- GoogleCalendarProvider::new (google.rs lines 145-156). -/
def googleNew : GoogleProviderState :=
  { client_id := GOOGLE_CLIENT_ID
    account_email := none
    access_token := none
    refresh_token := none
    token_expiry := none
    provider_id_cache := "google-unknown" }

/-- The identity resolution step of the Google authenticate flow
(google.rs lines 466-468): record the fetched email and recompute the
cached provider id. -/
def googleResolveIdentity (p : GoogleProviderState) (email : String) :
    GoogleProviderState :=
  { p with account_email := some email
           provider_id_cache := "google-" ++ email }

/-- GoogleCalendarProvider::provider_id (google.rs lines 580-582). -/
def google_provider_id (p : GoogleProviderState) : String :=
  p.provider_id_cache

/-- GoogleCalendarProvider::token_is_valid (google.rs lines 208-213):
the token is valid when it is present and now is more than 60 seconds
before the recorded expiry. -/
def google_token_is_valid (p : GoogleProviderState) (now : Int) : Bool :=
  match p.access_token, p.token_expiry with
  | some _, some expiry => decide (now < expiry - 60)
  | _, _ => false

/-- A token endpoint response for Google (google.rs lines 37-44). -/
structure GoogleTokenResponse where
  access_token : String
  refresh_token : Option String
  expires_in : Int
deriving DecidableEq, Repr

/-- Outcome of the HTTP exchange inside a Google token refresh, the
network being data of the model: transport failure, non-success status,
malformed body, or a parsed token response. -/
inductive GoogleRefreshHttp where
  | requestError (msg : String)
  | httpFailure (body : String)
  | badBody (msg : String)
  | success (resp : GoogleTokenResponse)
deriving DecidableEq, Repr

/-- GoogleCalendarProvider::refresh_token (google.rs lines 531-577):
without a held refresh credential it fails immediately with
TokenRefreshFailed; otherwise the outcome of the POST decides between
NetworkError, TokenRefreshFailed, DeserializationError and a state
update (new access token, expiry now + expires_in, and the refresh
credential replaced only when the response carries a new one).  The
keyring persistence step is an external effect outside this model. -/
def google_refresh_token (p : GoogleProviderState) (now : Int)
    (out : GoogleRefreshHttp) : GoogleProviderState × Option CalendarError :=
  match p.refresh_token with
  | none => (p, some (.TokenRefreshFailed "no refresh token available"))
  | some _ =>
    match out with
    | .requestError m => (p, some (.NetworkError ("token refresh request: " ++ m)))
    | .httpFailure body => (p, some (.TokenRefreshFailed ("refresh failed: " ++ body)))
    | .badBody m => (p, some (.DeserializationError ("refresh response: " ++ m)))
    | .success tr =>
      ({ p with
          access_token := some tr.access_token
          token_expiry := some (now + tr.expires_in)
          refresh_token :=
            match tr.refresh_token with
            | some rt => some rt
            | none => p.refresh_token },
        none)

/-! ## Microsoft provider (src-tauri/src/calendar/microsoft.rs) -/

/-- Loopback port range for the Microsoft OAuth redirect listener
(microsoft.rs lines 18-19), tried in order, both ends included. -/
def REDIRECT_PORT_START : Nat := 19857

def REDIRECT_PORT_END : Nat := 19867

/-- In-memory state of MicrosoftCalendarProvider (microsoft.rs
lines 24-31); the reqwest client is omitted. -/
structure MicrosoftProviderState where
  client_id : String
  account_email : Option String
  access_token : Option String
  refresh_token : Option String
  token_expiry : Option Int
deriving DecidableEq, Repr

/-- MicrosoftCalendarProvider::new (microsoft.rs lines 80-89). -/
def microsoftNew : MicrosoftProviderState :=
  { client_id := "PLACEHOLDER_AZURE_CLIENT_ID"
    account_email := none
    access_token := none
    refresh_token := none
    token_expiry := none }

/-- MicrosoftCalendarProvider::provider_id (microsoft.rs lines 488-493):
the bare account email once known, a placeholder before. -/
def microsoft_provider_id (p : MicrosoftProviderState) : String :=
  match p.account_email with
  | some email => email
  | none => "microsoft-unknown"

/-- MicrosoftCalendarProvider::is_token_expired (microsoft.rs
lines 370-376): expired when no expiry is recorded, or when now plus a
60 second margin has reached the expiry.  The presence of an access
token is not consulted. -/
def microsoft_is_token_expired (p : MicrosoftProviderState) (now : Int) : Bool :=
  match p.token_expiry with
  | some expiry => decide (now + 60 ≥ expiry)
  | none => true

/-- A token endpoint response for Microsoft (microsoft.rs lines 57-63);
the id_token is not consulted by refresh_token and is omitted. -/
structure MicrosoftTokenResponse where
  access_token : String
  refresh_token : Option String
  expires_in : Option Int
deriving DecidableEq, Repr

/-- Outcome of the HTTP exchange inside a Microsoft token refresh. -/
inductive MicrosoftRefreshHttp where
  | requestError (msg : String)
  | httpFailure (body : String)
  | badBody (msg : String)
  | success (resp : MicrosoftTokenResponse)
deriving DecidableEq, Repr

/-- MicrosoftCalendarProvider::refresh_token (microsoft.rs
lines 440-486): without a held refresh credential it fails immediately
with NotAuthenticated; otherwise every HTTP-level failure maps to
TokenRefreshFailed, and success updates the state (the refresh
credential is replaced only when a new one is returned, the expiry is
recorded only when expires_in is present).  The keyring persistence step
is an external effect outside this model. -/
def microsoft_refresh_token (p : MicrosoftProviderState) (now : Int)
    (out : MicrosoftRefreshHttp) : MicrosoftProviderState × Option CalendarError :=
  match p.refresh_token with
  | none => (p, some .NotAuthenticated)
  | some _ =>
    match out with
    | .requestError m => (p, some (.TokenRefreshFailed ("refresh request failed: " ++ m)))
    | .httpFailure body => (p, some (.TokenRefreshFailed ("token refresh failed: " ++ body)))
    | .badBody m => (p, some (.TokenRefreshFailed ("failed to parse refresh response: " ++ m)))
    | .success tr =>
      ({ p with
          access_token := some tr.access_token
          refresh_token :=
            match tr.refresh_token with
            | some rt => some rt
            | none => p.refresh_token
          token_expiry := Option.map (fun secs => now + secs) tr.expires_in },
        none)

/-! ## Lemmas: stability of the insertion sort model -/

theorem orderedInsert_filter_key {α : Type} (key : α → Int) (t : Int) (a : α) :
    ∀ s : List α,
      List.filter (fun x => decide (key x = t)) (List.orderedInsert (keyLe key) a s) =
        if key a = t then
          a :: List.filter (fun x => decide (key x = t)) s
        else List.filter (fun x => decide (key x = t)) s
  | [] => by
      by_cases h : key a = t <;> simp [List.orderedInsert, List.filter, h]
  | b :: s => by
      by_cases hab : keyLe key a b
      · rw [List.orderedInsert, if_pos hab]
        by_cases ha : key a = t <;> by_cases hb : key b = t <;>
          simp [List.filter_cons, ha, hb]
      · rw [List.orderedInsert, if_neg hab]
        have hblt : key b < key a := by
          simp only [keyLe, not_le] at hab
          exact hab
        by_cases ha : key a = t
        · have hb : ¬ key b = t := by omega
          simp [List.filter_cons, ha, hb, orderedInsert_filter_key key t a s]
        · by_cases hb : key b = t <;>
            simp [List.filter_cons, ha, hb, orderedInsert_filter_key key t a s]

theorem insertionSort_filter_key {α : Type} (key : α → Int) (t : Int) :
    ∀ l : List α,
      List.filter (fun x => decide (key x = t)) (List.insertionSort (keyLe key) l) =
        List.filter (fun x => decide (key x = t)) l
  | [] => rfl
  | a :: l => by
      rw [List.insertionSort, orderedInsert_filter_key key t a _]
      by_cases ha : key a = t <;>
        simp [ha, List.filter_cons, insertionSort_filter_key key t l]

theorem perm_eq_of_length_le_one {α : Type} {l1 l2 : List α} (h : l1.Perm l2)
    (hl : l2.length ≤ 1) : l1 = l2 := by
  match l2, hl with
  | [], _ => exact h.eq_nil
  | [a], _ => exact List.perm_singleton.mp h

/-! ## Lemmas: the deduplication pass -/

theorem dedupRetain_filter (k : String × Int × Int) :
    ∀ (l : List CalendarEvent) (seen : List (String × Int × Int)),
      List.filter (fun e => decide (dedupKey e = k)) (dedupRetain l seen) =
        if k ∈ seen then []
        else List.take 1 (List.filter (fun e => decide (dedupKey e = k)) l)
  | [], seen => by
      by_cases h : k ∈ seen <;> simp [dedupRetain, h]
  | e :: rest, seen => by
      by_cases hseen : dedupKey e ∈ seen
      · rw [dedupRetain, if_pos hseen]
        rw [dedupRetain_filter k rest seen]
        by_cases hk : k ∈ seen
        · simp [hk]
        · have hne : ¬ dedupKey e = k := fun hc => hk (hc ▸ hseen)
          simp [hk, List.filter_cons, hne]
      · rw [dedupRetain, if_neg hseen]
        by_cases hek : dedupKey e = k
        · have hk : ¬ k ∈ seen := fun hc => hseen (hek ▸ hc)
          rw [List.filter_cons_of_pos (by simp [hek])]
          rw [dedupRetain_filter k rest (dedupKey e :: seen)]
          simp [hk, hek, List.filter_cons]
        · rw [List.filter_cons_of_neg (by simp [hek])]
          rw [dedupRetain_filter k rest (dedupKey e :: seen)]
          have : (k ∈ dedupKey e :: seen) ↔ k ∈ seen := by
            simp [List.mem_cons, fun hc : k = dedupKey e => hek hc.symm]
            intro hc
            exact absurd hc.symm hek
          by_cases hk : k ∈ seen <;> simp [hk, this, List.filter_cons, hek]

theorem deduplicate_filter_key (l : List CalendarEvent) (k : String × Int × Int) :
    List.filter (fun e => decide (dedupKey e = k)) (deduplicate_events l) =
      List.take 1 (List.filter (fun e => decide (dedupKey e = k)) l) := by
  have hperm :=
    (List.perm_insertionSort (keyLe CalendarEvent.start_time)
      (dedupRetain l [])).filter (fun e => decide (dedupKey e = k))
  have hd := dedupRetain_filter k l []
  rw [if_neg (List.not_mem_nil k)] at hd
  rw [hd] at hperm
  exact perm_eq_of_length_le_one hperm (List.length_take_le 1 _)

/-- C1: the merge returns exactly the first occurrence of every
(title, start_time, end_time) fingerprint of the concatenated input, in
a stable ascending sort by start_time: the result is a permutation of
the first-occurrence pass, it is sorted by start_time, events sharing a
start_time keep their dedup-pass order, filtering the result by any
fingerprint yields exactly the first event of the input carrying it, and
in particular when an earlier event and a later event share a
fingerprint only the earlier copy survives. -/
theorem deduplicate_events_first_occurrence_stable_sort (l : List CalendarEvent) :
    (deduplicate_events l).Perm (dedupRetain l [])
    ∧ List.Sorted (keyLe CalendarEvent.start_time) (deduplicate_events l)
    ∧ (∀ t : Int,
        List.filter (fun e => decide (e.start_time = t)) (deduplicate_events l) =
          List.filter (fun e => decide (e.start_time = t)) (dedupRetain l []))
    ∧ (∀ k : String × Int × Int,
        List.filter (fun e => decide (dedupKey e = k)) (deduplicate_events l) =
          List.take 1 (List.filter (fun e => decide (dedupKey e = k)) l))
    ∧ (∀ (k : String × Int × Int) (a : CalendarEvent) (rest : List CalendarEvent),
        List.filter (fun e => decide (dedupKey e = k)) l = a :: rest →
          List.filter (fun e => decide (dedupKey e = k)) (deduplicate_events l) = [a]) := by
  refine ⟨List.perm_insertionSort _ _,
    List.sorted_insertionSort (keyLe CalendarEvent.start_time) _,
    fun t => insertionSort_filter_key CalendarEvent.start_time t _,
    fun k => deduplicate_filter_key l k,
    fun k a rest hf => ?_⟩
  rw [deduplicate_filter_key l k, hf]
  rfl

/-- Sample event, as produced by an earlier-added provider. -/
def evA : CalendarEvent :=
  { id := "g-shared"
    title := "Team Sync"
    start_time := 11
    end_time := 12
    ignored := false
    calendar_id := none
    provider_id := "google-work"
    is_all_day := false }

/-- The same logical event as evA (equal fingerprint), as produced by a
later-added provider: different id and provider_id. -/
def evB : CalendarEvent :=
  { evA with id := "ms-shared", provider_id := "ms-work" }

/-- Witness for C1: with the two identically-fingerprinted events evA
(earlier provider) and evB (later provider), the merge keeps exactly the
earlier copy evA. -/
theorem deduplicate_events_first_occurrence_stable_sort_witness :
    List.filter (fun e => decide (dedupKey e = ("Team Sync", 11, 12))) [evA, evB] =
      evA :: [evB]
    ∧ List.filter (fun e => decide (dedupKey e = ("Team Sync", 11, 12)))
        (deduplicate_events [evA, evB]) = [evA] :=
  ⟨by decide,
    (deduplicate_events_first_occurrence_stable_sort [evA, evB]).2.2.2.2
      ("Team Sync", 11, 12) evA [evB] (by decide)⟩

/-! ## Lemmas: the aggregator fetch loop -/

theorem foldl_fetchStep :
    ∀ (ps : List ProviderModel) (a : List CalendarEvent)
      (b : List (String × CalendarError)),
      ps.foldl fetchStep (a, b) = (a ++ okEvents ps, b ++ errEntries ps)
  | [], a, b => by simp [okEvents, errEntries]
  | p :: ps, a, b => by
      match hp : p.fetchResult with
      | .ok evs =>
        simp only [List.foldl_cons, fetchStep, hp, okEvents, errEntries,
          foldl_fetchStep ps]
        simp
      | .error e =>
        simp only [List.foldl_cons, fetchStep, hp, okEvents, errEntries,
          foldl_fetchStep ps]
        simp

theorem fetch_events_eq (ps : List ProviderModel) :
    fetch_events ps =
      { events := deduplicate_events (okEvents ps), errors := errEntries ps } := by
  unfold fetch_events
  rw [foldl_fetchStep ps [] []]
  simp

theorem errEntries_eq_filterMap :
    ∀ ps : List ProviderModel,
      errEntries ps = ps.filterMap (fun p =>
        match p.fetchResult with
        | .error e => some (p.provider_id, e)
        | .ok _ => none)
  | [] => rfl
  | p :: ps => by
      match hp : p.fetchResult with
      | .ok evs => simp [errEntries, hp, List.filterMap_cons, errEntries_eq_filterMap ps]
      | .error e => simp [errEntries, hp, List.filterMap_cons, errEntries_eq_filterMap ps]

theorem mem_okEvents :
    ∀ {ps : List ProviderModel} {p : ProviderModel}, p ∈ ps →
      ∀ {evs : List CalendarEvent}, p.fetchResult = .ok evs →
      ∀ {e : CalendarEvent}, e ∈ evs → e ∈ okEvents ps := by
  intro ps
  induction ps with
  | nil => intro p hp; cases hp
  | cons q ps ih =>
    intro p hp evs hres e he
    rcases List.mem_cons.mp hp with hq | htail
    · subst hq
      simp only [okEvents, hres]
      exact List.mem_append_left _ he
    · simp only [okEvents]
      exact List.mem_append_right _ (ih htail hres he)

theorem exists_same_key_in_dedup {l : List CalendarEvent} {e : CalendarEvent}
    (he : e ∈ l) :
    ∃ e2 ∈ deduplicate_events l, dedupKey e2 = dedupKey e := by
  have hmem : e ∈ List.filter (fun x => decide (dedupKey x = dedupKey e)) l :=
    List.mem_filter.mpr ⟨he, by simp⟩
  match hf : List.filter (fun x => decide (dedupKey x = dedupKey e)) l with
  | [] => rw [hf] at hmem; cases hmem
  | a :: rest =>
    have hchar := deduplicate_filter_key l (dedupKey e)
    rw [hf] at hchar
    have ha : a ∈ List.filter (fun x => decide (dedupKey x = dedupKey e))
        (deduplicate_events l) := by
      rw [hchar]
      exact List.mem_singleton.mpr rfl
    refine ⟨a, List.mem_of_mem_filter ha, ?_⟩
    have := List.of_mem_filter ha
    simpa using this

/-- C2 (amended): the aggregator fetch never fails as a whole: the error
list holds exactly one (provider_id, error) entry per failing provider,
in iteration order; for every event of a successful provider an event
with the same (title, start_time, end_time) fingerprint appears in the
merged result (the copy itself can be dropped by deduplication in favour
of an earlier identically-fingerprinted copy); and zero providers yield
an empty result with no errors. -/
theorem fetch_events_failure_isolation (ps : List ProviderModel) :
    (fetch_events ps).errors =
      ps.filterMap (fun p =>
        match p.fetchResult with
        | .error e => some (p.provider_id, e)
        | .ok _ => none)
    ∧ (∀ p ∈ ps, ∀ evs : List CalendarEvent, p.fetchResult = .ok evs →
        ∀ e ∈ evs, ∃ e2 ∈ (fetch_events ps).events, dedupKey e2 = dedupKey e)
    ∧ fetch_events [] = { events := [], errors := [] } := by
  refine ⟨?_, ?_, rfl⟩
  · rw [fetch_events_eq ps]
    exact errEntries_eq_filterMap ps
  · intro p hp evs hres e he
    rw [fetch_events_eq ps]
    exact exists_same_key_in_dedup (mem_okEvents hp hres he)

/-- Counterexample for C2 as stated: provider B succeeds, yet its event
evB does not appear in the merged result, because the earlier provider A
contributed evA with the same fingerprint and deduplication kept only
the earlier copy. -/
theorem fetch_events_success_events_can_be_dropped :
    (fetch_events [⟨"google-work", .ok [evA]⟩, ⟨"ms-work", .ok [evB]⟩]).events = [evA]
    ∧ ¬ evB ∈ (fetch_events [⟨"google-work", .ok [evA]⟩, ⟨"ms-work", .ok [evB]⟩]).events
    ∧ evB ≠ evA := by
  refine ⟨by decide, by decide, by decide⟩

/-- Witness for C2: a good and a failing provider; exactly one error
entry is recorded for the failing one and the good events stay
represented in the merge. -/
theorem fetch_events_failure_isolation_witness :
    (fetch_events [⟨"google-work", .ok [evA]⟩,
        ⟨"ms-broken", .error (.FetchFailed "mock fetch failure")⟩]).errors =
      [("ms-broken", .FetchFailed "mock fetch failure")]
    ∧ ∃ e2 ∈ (fetch_events [⟨"google-work", .ok [evA]⟩,
        ⟨"ms-broken", .error (.FetchFailed "mock fetch failure")⟩]).events,
        dedupKey e2 = dedupKey evA := by
  refine ⟨by decide, ?_⟩
  exact (fetch_events_failure_isolation _).2.1
    ⟨"google-work", .ok [evA]⟩ (by decide) [evA] rfl evA (by decide)

/-! ## Poller cycle claims -/

/-- C3: a cycle whose fetch returns zero events and at least one error is
a no-op: nothing is published, the cache is not written and the retained
fingerprint map is unchanged. -/
theorem pollCycle_all_failed_is_noop (st : PollerState) (ps : List ProviderModel)
    (h1 : (fetch_events ps).events = []) (h2 : (fetch_events ps).errors ≠ []) :
    pollCycle st ps = (st, none) := by
  have hps : ps ≠ [] := by
    intro hc
    subst hc
    exact h2 rfl
  have he : (fetch_events ps).events.isEmpty = true := by
    rw [h1]
    rfl
  have hr : (!(fetch_events ps).errors.isEmpty) = true := by
    match herr : (fetch_events ps).errors with
    | [] => exact absurd herr h2
    | x :: xs => rfl
  simp only [pollCycle, List.isEmpty_iff, hps, if_false, he, hr, Bool.and_self,
    if_true]

/-- Witness for C3: a single failing provider leaves the state and the
published set untouched. -/
theorem pollCycle_all_failed_is_noop_witness :
    (fetch_events [⟨"p", .error (.NetworkError "down")⟩]).events = []
    ∧ (fetch_events [⟨"p", .error (.NetworkError "down")⟩]).errors ≠ []
    ∧ pollCycle { fingerprints := [("x", ⟨"x", 1, 2⟩)], cache := [toRow evA] }
        [⟨"p", .error (.NetworkError "down")⟩] =
        ({ fingerprints := [("x", ⟨"x", 1, 2⟩)], cache := [toRow evA] }, none) :=
  ⟨by decide, by decide,
    pollCycle_all_failed_is_noop _ _ (by decide) (by decide)⟩

/-- C10: with zero providers and a non-empty retained fingerprint map,
the cycle publishes an empty list once and clears only the in-memory
map; the cache rows are untouched, a following zero-provider cycle
publishes nothing, and the next cold start loads and re-publishes the
still-cached events. -/
theorem pollCycle_zero_providers_keeps_cache (st : PollerState)
    (h : st.fingerprints ≠ []) :
    pollCycle st [] = ({ fingerprints := [], cache := st.cache }, some [])
    ∧ pollCycle { fingerprints := [], cache := st.cache } [] =
        ({ fingerprints := [], cache := st.cache }, none)
    ∧ (load_cached_events st.cache ≠ [] →
        coldStart st.cache =
          ({ fingerprints := fpMap (load_cached_events st.cache), cache := st.cache },
            some (load_cached_events st.cache))) := by
  refine ⟨?_, ?_, ?_⟩
  · simp [pollCycle, List.isEmpty_iff, h]
  · simp [pollCycle, List.isEmpty_iff]
  · intro hload
    simp [coldStart, List.isEmpty_iff, hload]

/-- Witness for C10: a state holding one published fingerprint and one
cached row goes through the empty publish, then the cold start serves
the cached event again. -/
theorem pollCycle_zero_providers_keeps_cache_witness :
    pollCycle { fingerprints := [("a", ⟨"a", 1, 2⟩)], cache := [toRow evA] } [] =
      ({ fingerprints := [], cache := [toRow evA] }, some [])
    ∧ coldStart [toRow evA] =
        ({ fingerprints := fpMap (load_cached_events [toRow evA]),
           cache := [toRow evA] },
          some (load_cached_events [toRow evA])) := by
  have h := pollCycle_zero_providers_keeps_cache
    { fingerprints := [("a", ⟨"a", 1, 2⟩)], cache := [toRow evA] } (by decide)
  exact ⟨h.1, h.2.2 (by decide)⟩

/-! ## Lemmas: the fingerprint map under distinct event ids -/

theorem foldl_mapInsert_fresh :
    ∀ (l : List CalendarEvent) (m : FpMap),
      (m.map Prod.fst ++ l.map CalendarEvent.id).Nodup →
      l.foldl (fun m e => mapInsert m e.id (fingerprintOf e)) m =
        m ++ l.map (fun e => (e.id, fingerprintOf e))
  | [], m, _ => by simp
  | e :: l, m, h => by
      have hid : ¬ e.id ∈ m.map Prod.fst := by
        rw [List.map_cons] at h
        rcases List.nodup_append.mp h with ⟨_, hr, hdisj⟩
        intro hc
        exact (List.disjoint_left.mp hdisj hc) (List.mem_cons_self _ _)
      have hany : List.any m (fun p => p.1 == e.id) = false := by
        rw [List.any_eq_false]
        intro p hp
        simp only [beq_iff_eq]
        intro hc
        exact hid (hc ▸ List.mem_map_of_mem Prod.fst hp)
      have hstep : mapInsert m e.id (fingerprintOf e) = m ++ [(e.id, fingerprintOf e)] := by
        rw [mapInsert, hany]
        rfl
      have hnd : ((m ++ [(e.id, fingerprintOf e)]).map Prod.fst ++
          l.map CalendarEvent.id).Nodup := by
        rw [List.map_append]
        rw [List.append_assoc]
        simpa using h
      calc (e :: l).foldl (fun m e => mapInsert m e.id (fingerprintOf e)) m
      _ = l.foldl (fun m e => mapInsert m e.id (fingerprintOf e))
            (m ++ [(e.id, fingerprintOf e)]) := by rw [List.foldl_cons, hstep]
      _ = (m ++ [(e.id, fingerprintOf e)]) ++
            l.map (fun e => (e.id, fingerprintOf e)) := foldl_mapInsert_fresh l _ hnd
      _ = m ++ (e :: l).map (fun e => (e.id, fingerprintOf e)) := by simp

theorem fpMap_of_nodup (l : List CalendarEvent)
    (h : (l.map CalendarEvent.id).Nodup) :
    fpMap l = l.map (fun e => (e.id, fingerprintOf e)) := by
  have := foldl_mapInsert_fresh l [] (by simpa using h)
  simpa [fpMap] using this

theorem mapLookup_map_pair_self :
    ∀ (l : List CalendarEvent), (l.map CalendarEvent.id).Nodup →
      ∀ e ∈ l, mapLookup (l.map (fun e => (e.id, fingerprintOf e))) e.id =
        some (fingerprintOf e)
  | [], _, e, he => absurd he (List.not_mem_nil e)
  | a :: l, h, e, he => by
      rcases List.mem_cons.mp he with rfl | htail
      · simp [mapLookup, List.find?]
      · have hne : (a.id == e.id) = false := by
          rw [List.map_cons, List.nodup_cons] at h
          simp only [beq_eq_false_iff_ne, ne_eq]
          intro hc
          exact h.1 (hc ▸ List.mem_map_of_mem CalendarEvent.id htail)
        rw [List.map_cons]
        rw [mapLookup] at *
        rw [List.find?_cons_of_neg _ (by simpa using hne)]
        exact mapLookup_map_pair_self l (by
          rw [List.map_cons, List.nodup_cons] at h
          exact h.2) e htail

theorem mapLookup_map_pair_none :
    ∀ (l : List CalendarEvent) (k : String), ¬ k ∈ l.map CalendarEvent.id →
      mapLookup (l.map (fun e => (e.id, fingerprintOf e))) k = none
  | [], _, _ => rfl
  | a :: l, k, hk => by
      have hne : (a.id == k) = false := by
        simp only [beq_eq_false_iff_ne, ne_eq]
        intro hc
        exact hk (by rw [List.map_cons, hc]; exact List.mem_cons_self _ _)
      rw [List.map_cons, mapLookup, List.find?_cons_of_neg _ (by simpa using hne)]
      exact mapLookup_map_pair_none l k (fun hc => hk (by
        rw [List.map_cons]; exact List.mem_cons_of_mem _ hc))

theorem mapEqb_lookup {m1 m2 : FpMap} (h : mapEqb m1 m2 = true) :
    ∀ p ∈ m1, mapLookup m2 p.1 = some p.2 := by
  intro p hp
  simp only [mapEqb, Bool.and_eq_true, List.all_eq_true] at h
  have := h.2 p hp
  simpa using this

theorem fpMap_single_change_detected
    (pre post : List CalendarEvent) (e e2 : CalendarEvent)
    (hold : ((pre ++ e :: post).map CalendarEvent.id).Nodup)
    (hnew : ((pre ++ e2 :: post).map CalendarEvent.id).Nodup)
    (hdiff : fingerprintOf e2 ≠ fingerprintOf e) :
    mapEqb (fpMap (pre ++ e2 :: post)) (fpMap (pre ++ e :: post)) = false := by
  by_contra hcon
  have htrue : mapEqb (fpMap (pre ++ e2 :: post)) (fpMap (pre ++ e :: post)) = true :=
    eq_true_of_ne_false hcon
  have hmemnew : (e2.id, fingerprintOf e2) ∈ fpMap (pre ++ e2 :: post) := by
    rw [fpMap_of_nodup _ hnew]
    exact List.mem_map_of_mem _ (List.mem_append_right _ (List.mem_cons_self _ _))
  have hlk := mapEqb_lookup htrue _ hmemnew
  rw [fpMap_of_nodup _ hold] at hlk
  by_cases hid : e2.id = e.id
  · have hself := mapLookup_map_pair_self (pre ++ e :: post) hold e
      (List.mem_append_right _ (List.mem_cons_self _ _))
    rw [hid] at hlk
    rw [hself] at hlk
    exact hdiff (Option.some.inj hlk).symm
  · have hnotin : ¬ e2.id ∈ (pre ++ e :: post).map CalendarEvent.id := by
      have hmid := List.nodup_middle.mp (by simpa using hnew)
      rw [List.nodup_cons] at hmid
      simp only [List.map_append, List.map_cons, List.mem_append, List.mem_cons]
      rintro (hc | hc | hc)
      · exact hmid.1 (by simpa using Or.inl hc)
      · exact hid hc
      · exact hmid.1 (by simpa using Or.inr hc)
    rw [mapLookup_map_pair_none _ _ hnotin] at hlk
    exact Option.noConfusion hlk

/-! ## Lemmas: the cache write under distinct event ids -/

theorem foldl_insertRow_ok :
    ∀ (l : List CalendarEvent) (rows : List CacheRow),
      (rows.map CacheRow.id ++ l.map CalendarEvent.id).Nodup →
      l.foldl insertRow (.ok rows) = .ok (rows ++ l.map toRow)
  | [], rows, _ => by simp
  | e :: l, rows, h => by
      have hid : ¬ e.id ∈ rows.map CacheRow.id := by
        rw [List.map_cons] at h
        rcases List.nodup_append.mp h with ⟨_, _, hdisj⟩
        intro hc
        exact (List.disjoint_left.mp hdisj hc) (List.mem_cons_self _ _)
      have hany : List.any rows (fun r => r.id == e.id) = false := by
        rw [List.any_eq_false]
        intro r hr
        simp only [beq_iff_eq]
        intro hc
        exact hid (hc ▸ List.mem_map_of_mem CacheRow.id hr)
      have hstep : insertRow (.ok rows) e = .ok (rows ++ [toRow e]) := by
        rw [insertRow, hany]
        rfl
      have hnd : ((rows ++ [toRow e]).map CacheRow.id ++
          l.map CalendarEvent.id).Nodup := by
        rw [List.map_append, List.append_assoc]
        have : (toRow e).id = e.id := rfl
        simpa [this] using h
      calc (e :: l).foldl insertRow (.ok rows)
      _ = l.foldl insertRow (.ok (rows ++ [toRow e])) := by
            rw [List.foldl_cons, hstep]
      _ = .ok ((rows ++ [toRow e]) ++ l.map toRow) := foldl_insertRow_ok l _ hnd
      _ = .ok (rows ++ (e :: l).map toRow) := by simp

theorem cache_events_of_nodup (table : CacheTable) (l : List CalendarEvent)
    (h : (l.map CalendarEvent.id).Nodup) :
    cache_events table l = (l.map toRow, none) := by
  rw [cache_events, foldl_insertRow_ok l [] (by simpa using h)]
  simp

/-- C4 (amended): a usable cycle publishes and attempts the cache write
exactly when the new fingerprint map differs (HashMap value equality)
from the retained one; the cache write replaces the table with the new
event rows whenever the event ids are pairwise distinct; and for event
sets with pairwise distinct ids, changing the fingerprint of any single
event (its id, start_time or end_time) makes the maps compare unequal,
so exactly one publish and cache write is triggered. -/
theorem pollCycle_fingerprint_change_detection (st : PollerState)
    (ps : List ProviderModel) (hps : ps ≠ [])
    (husable : ¬ ((fetch_events ps).events = [] ∧ (fetch_events ps).errors ≠ [])) :
    (mapEqb (fpMap (fetch_events ps).events) st.fingerprints = false →
      pollCycle st ps =
        ({ fingerprints := fpMap (fetch_events ps).events,
           cache := (cache_events st.cache (fetch_events ps).events).1 },
          some (fetch_events ps).events))
    ∧ (mapEqb (fpMap (fetch_events ps).events) st.fingerprints = true →
        pollCycle st ps = (st, none))
    ∧ (((fetch_events ps).events.map CalendarEvent.id).Nodup →
        cache_events st.cache (fetch_events ps).events =
          ((fetch_events ps).events.map toRow, none))
    ∧ (∀ (pre post : List CalendarEvent) (e e2 : CalendarEvent),
        ((pre ++ e :: post).map CalendarEvent.id).Nodup →
        ((pre ++ e2 :: post).map CalendarEvent.id).Nodup →
        fingerprintOf e2 ≠ fingerprintOf e →
        mapEqb (fpMap (pre ++ e2 :: post)) (fpMap (pre ++ e :: post)) = false) := by
  have hskip : ((fetch_events ps).events.isEmpty
      && !(fetch_events ps).errors.isEmpty) = false := by
    by_cases hev : (fetch_events ps).events = []
    · have herr : (fetch_events ps).errors = [] := by
        by_contra hc
        exact husable ⟨hev, hc⟩
      rw [herr]
      simp
    · simp [List.isEmpty_iff, hev]
  refine ⟨?_, ?_, fun h => cache_events_of_nodup st.cache _ h,
    fun pre post e e2 => fpMap_single_change_detected pre post e e2⟩
  · intro hneq
    simp [pollCycle, List.isEmpty_iff, hps, hskip, hneq]
  · intro heq
    simp [pollCycle, List.isEmpty_iff, hps, hskip, heq]

/-- First of two events sharing the id dup (provider-local ids are not
globally unique, so duplicate ids can reach the poller). -/
def dupEv1 : CalendarEvent :=
  { id := "dup"
    title := "A"
    start_time := 0
    end_time := 0
    ignored := false
    calendar_id := none
    provider_id := "P"
    is_all_day := false }

/-- Second event with the same id dup and a later start. -/
def dupEv2 : CalendarEvent :=
  { dupEv1 with title := "B", start_time := 1 }

/-- dupEv1 with only its end_time changed. -/
def dupEv1changed : CalendarEvent :=
  { dupEv1 with end_time := 5 }

/-- Counterexample for C4 as stated: with two events sharing an id, a
cycle that changes only the end_time of one event publishes nothing and
writes nothing, because the later duplicate overwrites the changed entry
in the fingerprint map and the maps compare equal. -/
theorem pollCycle_single_field_change_missed_on_duplicate_ids :
    pollCycle { fingerprints := [], cache := [] } [⟨"P", .ok [dupEv1, dupEv2]⟩] =
      ({ fingerprints := [("dup", ⟨"dup", 1, 0⟩)], cache := [] },
        some [dupEv1, dupEv2])
    ∧ dupEv1changed = { dupEv1 with end_time := 5 }
    ∧ dupEv1changed.end_time ≠ dupEv1.end_time
    ∧ pollCycle { fingerprints := [("dup", ⟨"dup", 1, 0⟩)], cache := [] }
        [⟨"P", .ok [dupEv1changed, dupEv2]⟩] =
        ({ fingerprints := [("dup", ⟨"dup", 1, 0⟩)], cache := [] }, none) := by
  decide

/-- Witness for C4: a first usable cycle with one fresh event publishes
it and rewrites the cache with its row. -/
theorem pollCycle_fingerprint_change_detection_witness :
    pollCycle { fingerprints := [], cache := [] } [⟨"google-work", .ok [evA]⟩] =
      ({ fingerprints := [("g-shared", ⟨"g-shared", 11, 12⟩)],
         cache := [toRow evA] },
        some [evA]) := by
  have h := (pollCycle_fingerprint_change_detection
    { fingerprints := [], cache := [] } [⟨"google-work", .ok [evA]⟩]
    (by decide) (by decide)).1 (by decide)
  rw [h]
  decide

/-! ## Cache round-trip claims -/

theorem eventOfRow_toRow (e : CalendarEvent) : eventOfRow (toRow e) = e := by
  cases e with
  | mk id title st en ign cal pid allday =>
    cases ign <;> cases allday <;> simp [toRow, eventOfRow]

theorem load_cached_events_eq_map (table : CacheTable) :
    load_cached_events table =
      (List.insertionSort (keyLe CacheRow.start_time) table).map eventOfRow := by
  rw [load_cached_events]
  have h : rowToEvent = some ∘ eventOfRow := rfl
  rw [h, List.filterMap_eq_map]

/-- C5 (amended): for every list of events with pairwise distinct ids,
the cache write succeeds, replaces the table with exactly the rows of
the new list regardless of what the table held before (so writing V1
then V2 leaves only V2), and loading yields the same events, ordered by
start_time. -/
theorem cache_events_round_trip (table : CacheTable) (l : List CalendarEvent)
    (h : (l.map CalendarEvent.id).Nodup) :
    (cache_events table l).2 = none
    ∧ (cache_events table l).1 = l.map toRow
    ∧ (load_cached_events (cache_events table l).1).Perm l
    ∧ List.Sorted (keyLe CalendarEvent.start_time)
        (load_cached_events (cache_events table l).1) := by
  have hc := cache_events_of_nodup table l h
  refine ⟨by rw [hc], by rw [hc], ?_, ?_⟩
  · rw [hc]
    rw [load_cached_events_eq_map]
    have hperm :
        ((List.insertionSort (keyLe CacheRow.start_time) (l.map toRow)).map
          eventOfRow).Perm ((l.map toRow).map eventOfRow) :=
      (List.perm_insertionSort _ _).map eventOfRow
    have hmm : (l.map toRow).map eventOfRow = l := by
      rw [List.map_map]
      have : eventOfRow ∘ toRow = id := funext eventOfRow_toRow
      rw [this, List.map_id]
    rw [hmm] at hperm
    exact hperm
  · rw [hc, load_cached_events_eq_map]
    have hs := List.sorted_insertionSort (keyLe CacheRow.start_time) (l.map toRow)
    exact List.Pairwise.map eventOfRow (fun a b hab => hab) hs

/-- Counterexample for C5 as stated: two events sharing an id violate
the PRIMARY KEY of the cache table, the transaction rolls back, and
loading returns the prior (here empty) contents instead of the two
events. -/
theorem cache_events_duplicate_id_fails :
    cache_events [] [dupEv1, dupEv2] =
      ([], some "UNIQUE constraint failed: calendar_events.id")
    ∧ load_cached_events (cache_events [] [dupEv1, dupEv2]).1 = []
    ∧ [dupEv1, dupEv2].length = 2 := by
  decide

/-- Witness for C5: two distinct-id events survive the write and the
load intact. -/
theorem cache_events_round_trip_witness :
    (cache_events [] [evA, evB]).2 = none
    ∧ (cache_events [] [evA, evB]).1 = [toRow evA, toRow evB]
    ∧ (load_cached_events (cache_events [] [evA, evB]).1).Perm [evA, evB] := by
  have h := cache_events_round_trip [] [evA, evB] (by decide)
  exact ⟨h.1, by decide, h.2.2.1⟩

/-! ## Token validity claims -/

/-- C6 (amended): Google judges a token valid exactly when it is
present, an expiry is recorded and now is more than 60 seconds before
it; Microsoft judges the token not expired exactly when an expiry is
recorded and now is more than 60 seconds before it, without consulting
the presence of the access token; for both, a token expiring in exactly
30 seconds fails the check, one expiring in 3600 seconds passes it, and
a missing expiry always fails. -/
theorem token_validity_sixty_second_margin (g : GoogleProviderState)
    (m : MicrosoftProviderState) (now : Int) :
    (google_token_is_valid g now = true ↔
      (∃ a, g.access_token = some a)
      ∧ ∃ e, g.token_expiry = some e ∧ now < e - 60)
    ∧ (microsoft_is_token_expired m now = false ↔
        ∃ e, m.token_expiry = some e ∧ now < e - 60)
    ∧ google_token_is_valid
        { g with access_token := some "t", token_expiry := some (now + 30) } now = false
    ∧ google_token_is_valid
        { g with access_token := some "t", token_expiry := some (now + 3600) } now = true
    ∧ google_token_is_valid { g with token_expiry := none } now = false
    ∧ microsoft_is_token_expired { m with token_expiry := some (now + 30) } now = true
    ∧ microsoft_is_token_expired { m with token_expiry := some (now + 3600) } now = false
    ∧ microsoft_is_token_expired { m with token_expiry := none } now = true := by
  refine ⟨?_, ?_, ?_, ?_, ?_, ?_, ?_, ?_⟩
  · cases hat : g.access_token <;> cases hte : g.token_expiry <;>
      simp [google_token_is_valid, hat, hte]
  · cases hte : m.token_expiry with
    | none => simp [microsoft_is_token_expired, hte]
    | some e =>
      simp only [microsoft_is_token_expired, hte, decide_eq_false_iff_not, not_le,
        Option.some.injEq]
      constructor
      · intro h
        exact ⟨e, rfl, by omega⟩
      · rintro ⟨e2, rfl, h⟩
        omega
  · simp only [google_token_is_valid]
    simp only [decide_eq_false_iff_not, not_lt]
    omega
  · simp only [google_token_is_valid]
    simp only [decide_eq_true_eq]
    omega
  · simp [google_token_is_valid]
  · simp only [microsoft_is_token_expired]
    simp only [decide_eq_true_eq]
    omega
  · simp only [microsoft_is_token_expired]
    simp only [decide_eq_false_iff_not, not_le]
    omega
  · simp [microsoft_is_token_expired]

/-- Counterexample for C6 as stated: the Microsoft check judges the
token usable (not expired) although no access token is present at all,
so validity is not equivalent to presence plus margin there. -/
theorem microsoft_validity_ignores_token_presence :
    microsoft_is_token_expired
      { microsoftNew with access_token := none, token_expiry := some 3600 } 0 = false
    ∧ ({ microsoftNew with access_token := none, token_expiry := some 3600 }
        : MicrosoftProviderState).access_token = none := by
  decide

/-- Witness for C6: at time 0, a Google token expiring at 3600 passes
the check and a Microsoft token expiring at 30 fails it. -/
theorem token_validity_sixty_second_margin_witness :
    google_token_is_valid
      { googleNew with access_token := some "t", token_expiry := some (0 + 3600) } 0 = true
    ∧ microsoft_is_token_expired
        { microsoftNew with token_expiry := some (0 + 30) } 0 = true :=
  ⟨(token_validity_sixty_second_margin googleNew microsoftNew 0).2.2.2.1,
    (token_validity_sixty_second_margin googleNew microsoftNew 0).2.2.2.2.2.1⟩

/-! ## Provider id claims -/

/-- C7 (amended): before the identity is known both providers return a
placeholder ("google-unknown" and "microsoft-unknown"); once resolved,
Google returns "google-" followed by the account email while Microsoft
returns the bare account email with no type marker. -/
theorem provider_id_placeholder_and_resolution (g : GoogleProviderState)
    (m : MicrosoftProviderState) (email : String) :
    google_provider_id googleNew = "google-unknown"
    ∧ google_provider_id (googleResolveIdentity g email) = "google-" ++ email
    ∧ microsoft_provider_id microsoftNew = "microsoft-unknown"
    ∧ microsoft_provider_id { m with account_email := some email } = email :=
  ⟨rfl, rfl, rfl, rfl⟩

/-- Counterexample for C7 as stated: with a resolved identity the
Microsoft provider id is the bare email, not the claimed
"microsoft-" ++ email. -/
theorem microsoft_provider_id_is_bare_email :
    microsoft_provider_id
      { microsoftNew with account_email := some "user@outlook.com" } =
        "user@outlook.com"
    ∧ "user@outlook.com" ≠ "microsoft-" ++ "user@outlook.com" := by
  exact ⟨rfl, by decide⟩

/-! ## Refresh-without-credential claims -/

/-- Holds exactly on the TokenRefreshFailed error kind. -/
def isTokenRefreshFailed : Option CalendarError → Bool
  | some (.TokenRefreshFailed _) => true
  | _ => false

/-- C8 (amended): with no refresh credential held, the Google refresh
fails with TokenRefreshFailed while the Microsoft refresh fails with
NotAuthenticated, whatever the network would have answered; both leave
the provider state unchanged. -/
theorem refresh_token_without_credential (g : GoogleProviderState)
    (m : MicrosoftProviderState) (now now2 : Int) (og : GoogleRefreshHttp)
    (om : MicrosoftRefreshHttp) (hg : g.refresh_token = none)
    (hm : m.refresh_token = none) :
    google_refresh_token g now og =
      (g, some (.TokenRefreshFailed "no refresh token available"))
    ∧ microsoft_refresh_token m now2 om = (m, some .NotAuthenticated) := by
  constructor
  · simp [google_refresh_token, hg]
  · simp [microsoft_refresh_token, hm]

/-- Counterexample for C8 as stated: the Microsoft refresh with no
credential held reports NotAuthenticated, which is not the
TokenRefreshFailed kind the claim names. -/
theorem microsoft_refresh_without_credential_is_not_authenticated :
    (microsoft_refresh_token microsoftNew 0 (.requestError "x")).2 =
      some CalendarError.NotAuthenticated
    ∧ isTokenRefreshFailed
        (microsoft_refresh_token microsoftNew 0 (.requestError "x")).2 = false := by
  decide

/-- Witness for C8: the freshly constructed providers hold no refresh
credential and fail as described, unchanged. -/
theorem refresh_token_without_credential_witness :
    google_refresh_token googleNew 0 (.requestError "down") =
      (googleNew, some (.TokenRefreshFailed "no refresh token available"))
    ∧ microsoft_refresh_token microsoftNew 0 (.requestError "down") =
        (microsoftNew, some .NotAuthenticated) :=
  refresh_token_without_credential googleNew microsoftNew 0 0
    (.requestError "down") (.requestError "down") rfl rfl

/-! ## Port range claim -/

/-- C9: the two fixed loopback port ranges are not disjoint: port 19857
is the last Google candidate (19847..=19857) and the first Microsoft
candidate (19857..=19867), and it is the only shared port. -/
theorem port_ranges_overlap_at_19857 :
    19857 ∈ portCandidates PORT_RANGE_START PORT_RANGE_END
    ∧ 19857 ∈ portCandidates REDIRECT_PORT_START REDIRECT_PORT_END
    ∧ List.filter
        (fun p => decide (p ∈ portCandidates REDIRECT_PORT_START REDIRECT_PORT_END))
        (portCandidates PORT_RANGE_START PORT_RANGE_END) = [19857] := by
  decide
